import Mathlib

/-! Verification development of the conversational core of the VoiceRAG
call-center voice assistant
(`app/backend/acs_call_handler.py` and `app/backend/quote_tools.py`).

The Python code is shallowly embedded: dictionaries become structures with
`Option` fields (a missing key or JSON `null` is `none`), Python truthiness
of strings and integers is made explicit (`truthyStr`, `truthyInt`), the
global `_active_acs_calls` dictionary becomes a function from call ids to
optional call records, and the two external effectful collaborators (the
Azure OpenAI language model and the Salesforce catalog/quoting backend) are
passed in as explicit `Except`/`Option`-valued inputs, matching the way the
handlers consume their results.  The fuzzy product matcher
`_find_best_product_match` (difflib similarity scoring) is passed as an
oracle parameter wherever the surrounding code merely forwards its result;
no statement below depends on its scores.
-/

set_option maxRecDepth 20000

/-- One JSON quote line item `{"product_package": ..., "quantity": ...}`.
A missing key or `null` is `none`. -/
structure QuoteItem where
  product_package : Option String
  quantity : Option Int
deriving DecidableEq, Repr

/-- Quote line item as produced by `_extract_quote_info_tool` in
`quote_tools.py`, which may additionally carry a `"matched": False` marker. -/
structure ToolQuoteItem where
  product_package : Option String
  quantity : Option Int
  matched : Option Bool
deriving DecidableEq, Repr

/-- The `extracted` dictionary of a quote state. -/
structure Extracted where
  customer_name : Option String
  contact_info : Option String
  quote_items : List QuoteItem
  expected_start_date : Option String
  notes : Option String
deriving DecidableEq, Repr

/-- A `quote_state` dictionary as built by `_extract_quote_info_phone`. -/
structure QuoteState where
  extracted : Extracted
  missing_fields : List String
  products_available : List String
  is_complete : Bool
deriving DecidableEq, Repr

/-- One entry of a `conversation_history` list. -/
structure Message where
  role : String
  content : String
deriving DecidableEq, Repr

/-- The per-call dictionary stored in `_active_acs_calls`.  Only the fields
that carry conversational state are modelled; purely diagnostic fields
(`caller_raw_id`, `recipient_phone`, `started_at`, ...) are omitted. -/
structure CallRecord where
  status : String
  caller_phone : Option String
  conversation_history : List Message
  quote_state : Option QuoteState
deriving DecidableEq, Repr

/-- The result dictionary of `create_quote_from_state` /
`sf_service.create_quote`. -/
structure QuoteResult where
  quote_id : Option String
  quote_number : Option String
  quote_url : Option String
deriving DecidableEq, Repr

/-- The global `_active_acs_calls` dictionary, keyed by call connection id. -/
def Store : Type := String → Option CallRecord

/-- Python truthiness of an optional string (`None` and `""` are falsy). -/
def truthyStr (o : Option String) : Bool :=
  match o with
  | some s => !(s == "")
  | none => false

/-- Python truthiness of an optional integer (`None` and `0` are falsy). -/
def truthyInt (o : Option Int) : Bool :=
  match o with
  | some n => !(n == 0)
  | none => false

/-- Python `quantity or 1`: `None` and `0` become `1`, any other value is
kept. -/
def pyOr1 (q : Option Int) : Int :=
  match q with
  | some n => if n = 0 then 1 else n
  | none => 1

/-- Python `value or default` on an optional string. -/
def pyOrStr (o : Option String) (d : String) : String :=
  match o with
  | some s => if s = "" then d else s
  | none => d

/-- Scalar-field merge of `_extract_quote_info_phone`
(`if new_value: extracted_data[key] = new_value`): a truthy new value
overwrites, a `null`/missing/empty new value leaves the old one. -/
def mergeScalar (old newV : Option String) : Option String :=
  match newV with
  | some s => if s = "" then old else some s
  | none => old

/-- The scalar merge loop over the four scalar quote fields
(`customer_name`, `contact_info`, `expected_start_date`, `notes`). -/
def mergeExtractedScalars (cur newE : Extracted) : Extracted :=
  { cur with
    customer_name := mergeScalar cur.customer_name newE.customer_name
    contact_info := mergeScalar cur.contact_info newE.contact_info
    expected_start_date := mergeScalar cur.expected_start_date newE.expected_start_date
    notes := mergeScalar cur.notes newE.notes }

/-- Update the quantity of the first existing item whose `product_package`
equals `name`; `none` when no such item exists. -/
def setQuantityFirst (name : String) (qty : Option Int) : List QuoteItem → Option (List QuoteItem)
| [] => none
| it :: rest =>
  if it.product_package = some name then some ({ it with quantity := qty } :: rest)
  else
    match setQuantityFirst name qty rest with
    | some rest' => some (it :: rest')
    | none => none

/-- The `quote_items` merge loop of `_extract_quote_info_phone`: each new
item with a truthy product name either updates the quantity of the first
existing item with the same name in place, or is appended; items without a
truthy product name are skipped. -/
def mergeQuoteItems : List QuoteItem → List QuoteItem → List QuoteItem
| existing, [] => existing
| existing, ni :: rest =>
  match ni.product_package with
  | some name =>
    if name = "" then mergeQuoteItems existing rest
    else
      match setQuantityFirst name ni.quantity existing with
      | some updated => mergeQuoteItems updated rest
      | none => mergeQuoteItems (existing ++ [ni]) rest
  | none => mergeQuoteItems existing rest

/-- Product names of a list of items (items without a name contribute
nothing). -/
def itemNames (l : List QuoteItem) : List String :=
  l.filterMap QuoteItem.product_package

/-- Product-matching loop of `_extract_quote_info_phone` (lines 1380-1401):
items with a truthy product name are rewritten to the matched catalog name
(or kept) with quantity `quantity or 1`; items without a name are dropped.
`matcher` stands for `_find_best_product_match`. -/
def matchItemsPhone (matcher : String → List String → Option String) (products : List String) : List QuoteItem → List QuoteItem
| [] => []
| it :: rest =>
  match it.product_package with
  | some p =>
    if p = "" then matchItemsPhone matcher products rest
    else { product_package := some ((matcher p products).getD p),
           quantity := some (pyOr1 it.quantity) } :: matchItemsPhone matcher products rest
  | none => matchItemsPhone matcher products rest

/-- Product-matching loop of `_extract_quote_info_tool` in `quote_tools.py`
(lines 432-464): like the phone version, but an unmatched item is flagged
with `"matched": False`, and an item matched while the catalog list is
empty gets quantity `1` outright. -/
def matchItemsTool (matcher : String → List String → Option String) (products : List String) : List QuoteItem → List ToolQuoteItem
| [] => []
| it :: rest =>
  match it.product_package with
  | some p =>
    if p = "" then matchItemsTool matcher products rest
    else if products.isEmpty then
      { product_package := some p, quantity := some 1, matched := none } :: matchItemsTool matcher products rest
    else
      match matcher p products with
      | some m => { product_package := some m, quantity := some (pyOr1 it.quantity), matched := none } :: matchItemsTool matcher products rest
      | none => { product_package := some p, quantity := some (pyOr1 it.quantity), matched := some false } :: matchItemsTool matcher products rest
  | none => matchItemsTool matcher products rest

/-- A valid quote line item: a dict with truthy `product_package` and a
quantity that `is not None` and `> 0` (shared by
`_extract_quote_info_phone` and `_extract_quote_info_tool`). -/
def validQuoteItem (it : QuoteItem) : Bool :=
  truthyStr it.product_package &&
    (match it.quantity with
     | some q => decide (0 < q)
     | none => false)

/-- The missing-field computation shared by `_extract_quote_info_phone`
(lines 1416-1441) and `_extract_quote_info_tool` (lines 485-503). -/
def computeMissingFields (e : Extracted) : List String :=
  (if truthyStr e.customer_name then [] else ["customer_name"]) ++
  ((if truthyStr e.contact_info then [] else ["contact_info"]) ++
   (if (e.quote_items.filter validQuoteItem).isEmpty then ["quote_items"] else []))

/-- The final result dictionary of a successful extraction:
`is_complete` is `len(missing_fields) == 0`. -/
def mkQuoteState (e : Extracted) (products : List String) : QuoteState :=
  { extracted := e
    missing_fields := computeMissingFields e
    products_available := products
    is_complete := (computeMissingFields e).isEmpty }

/-- The failure result of `_extract_quote_info_phone` (missing OpenAI
configuration, or any exception): the prior `extracted` with all three
required fields reported missing.  The source dictionary carries no
`products_available` key; reading the absent key yields the empty list. -/
def fallbackQuoteState (e : Extracted) : QuoteState :=
  { extracted := e
    missing_fields := ["customer_name", "contact_info", "quote_items"]
    products_available := []
    is_complete := false }

/-! Email normalization (`quote_tools.py`, lines 17-145)

Strings are handled as `List Char`.  The small regular expressions of the
source are compiled by hand into deterministic list scans; backtracking of
the greedy character-class repetitions is resolved exactly as the Python
`re` engine resolves it (see the comments at each function).  Python's
unicode-aware `\w` is approximated by treating every non-ASCII codepoint as
a word character (exact for the ASCII strings reasoned about below; the CJK
alternatives of the word map are word characters in Python as well). -/

/-- Python `\s` (ASCII part). -/
def wsChar (c : Char) : Bool :=
  c == ' ' || c == '\t' || c == '\n' || c == '\r' || c == '\x0b' || c == '\x0c'

/-- Python `\w` for word-boundary `\b` computation (approximation: every
non-ASCII codepoint counts as a word character). -/
def wordChar (c : Char) : Bool :=
  c.isAlphanum || c == '_' || decide (128 ≤ c.toNat)

/-- The characters of `_TRAILING_PUNCT`. -/
def trailingPunctChar (c : Char) : Bool :=
  c == '.' || c == ',' || c == ';' || c == ':' || c == '!' || c == '?' ||
  c == ')' || c == '）' || c == ']' || c == Char.ofNat 125 || c == Char.ofNat 39 ||
  c == '\"' || c == '，' || c == '。' || c == '；' || c == '：' || c == '！' || c == '？'

/-- Source `_strip_trailing_punct`: drop trailing punctuation characters. -/
def stripTrailingPunct (l : List Char) : List Char :=
  (l.reverse.dropWhile trailingPunctChar).reverse

/-- Python `str.strip()` (ASCII whitespace). -/
def trimL (l : List Char) : List Char :=
  ((l.dropWhile wsChar).reverse.dropWhile wsChar).reverse

/-- Python `str.lower()` (ASCII; the inputs reasoned about are ASCII). -/
def toLowerL (l : List Char) : List Char :=
  l.map Char.toLower

/-- The non-whitespace characters of a list, in order. -/
def filterNonWs (l : List Char) : List Char :=
  l.filter (fun c => !wsChar c)

/-- Predicate `leadsWith a b`: `b` starts with `a`. -/
def leadsWith : List Char → List Char → Bool
| [], _ => true
| _ :: _, [] => false
| a :: as, b :: bs => a == b && leadsWith as bs

/-- Predicate `occursIn n h`: `n` occurs as a contiguous run inside `h`. -/
def occursIn (n : List Char) : List Char → Bool
| [] => n.isEmpty
| c :: cs => leadsWith n (c :: cs) || occursIn n cs

/-- One alternative of a `_WORD_MAP` pattern: a sequence of literal pieces
and `\s*` gaps (only `under\s*score` uses a gap). -/
inductive EmailTokSeg where
| lit (cs : List Char)
| wsGap
deriving Repr

/-- Match a token alternative at the start of `cs`; returns the matched
characters (from the original string) and the remainder.  The `\s*` gap is
greedy, and deterministic because each gap is followed by a literal that
does not start with whitespace. -/
def matchSegs : List EmailTokSeg → List Char → Option (List Char × List Char)
| [], cs => some ([], cs)
| EmailTokSeg.lit l :: rest, cs =>
  if leadsWith l cs then
    match matchSegs rest (cs.drop l.length) with
    | some (m, r) => some (l ++ m, r)
    | none => none
  else none
| EmailTokSeg.wsGap :: rest, cs =>
  match matchSegs rest (cs.dropWhile wsChar) with
  | some (m, r) => some (cs.takeWhile wsChar ++ m, r)
  | none => none

/-- Word-character test of an optional character; out of range counts as
non-word, as for `\b` at the ends of the string. -/
def isWordOpt (o : Option Char) : Bool :=
  match o with
  | some c => wordChar c
  | none => false

/-- Boundary test `\b ... \b` around a match: the word-character property must flip at
both edges of the matched text. -/
def boundaryOk (prev : Option Char) (m rest : List Char) : Bool :=
  match m.head?, m.getLast? with
  | some c0, some c1 => (isWordOpt prev != wordChar c0) && (wordChar c1 != isWordOpt rest.head?)
  | _, _ => false

/-- Try the alternatives of one word-map pattern in order at the current
position (Python alternation is leftmost-first; an alternative whose
trailing `\b` fails is abandoned in favour of the next one). -/
def tryAlts (alts : List (List EmailTokSeg)) (prev : Option Char) (cs : List Char) : Option (List Char × List Char) :=
  match alts with
  | [] => none
  | a :: rest =>
    match matchSegs a cs with
    | some (m, r) => if boundaryOk prev m r then some (m, r) else tryAlts rest prev cs
    | none => tryAlts rest prev cs

/-- One `re.sub` pass for one `_WORD_MAP` entry: scan left to right, replace
each bounded occurrence, resume after the matched text (the replacement is
not rescanned; boundaries are computed on the original characters). -/
def subWordPass (alts : List (List EmailTokSeg)) (repl : List Char) : Nat → Option Char → List Char → List Char
| 0, _, cs => cs
| _ + 1, _, [] => []
| fuel + 1, prev, c :: cs =>
  match tryAlts alts prev (c :: cs) with
  | some (m, r) => repl ++ subWordPass alts repl fuel m.getLast? r
  | none => c :: subWordPass alts repl fuel (some c) cs

/-- A single-literal alternative. -/
def litAlt (s : String) : List EmailTokSeg :=
  [EmailTokSeg.lit s.data]

/-- Table `_WORD_MAP`: spoken-word patterns and their replacement symbols. -/
def wordMapTable : List (List (List EmailTokSeg) × List Char) :=
  [([litAlt ("at"), litAlt ("@"), litAlt ("艾特"), litAlt ("小老鼠"), litAlt ("at-sign"), litAlt ("atsign")], ['@']),
   ([litAlt ("dot"), litAlt ("point"), litAlt ("period"), litAlt ("句号"), litAlt ("点"), litAlt ("點")], ['.']),
   ([litAlt ("underscore"), [EmailTokSeg.lit ("under").data, EmailTokSeg.wsGap, EmailTokSeg.lit ("score").data], litAlt ("下划线"), litAlt ("下劃線")], ['_']),
   ([litAlt ("dash"), litAlt ("hyphen"), litAlt ("minus"), litAlt ("横杠"), litAlt ("横杆"), litAlt ("短横")], ['-']),
   ([litAlt ("plus"), litAlt ("加号"), litAlt ("加號")], ['+'])]

/-- Source `_apply_word_map`: the five `re.sub` passes, in table order. -/
def _apply_word_map (l : List Char) : List Char :=
  wordMapTable.foldl (fun acc pr => subWordPass pr.1 pr.2 acc.length none acc) l

/-- Character class `[a-z0-9._%+\-\s]` of `_EMAIL_FIND_REGEX` (with `re.I`). -/
def findLocalClass (c : Char) : Bool :=
  c.isAlphanum || c == '.' || c == '_' || c == '%' || c == '+' || c == '-' || wsChar c

/-- Character class `[a-z0-9.\-\s]` of `_EMAIL_FIND_REGEX` (with `re.I`). -/
def findDomainClass (c : Char) : Bool :=
  c.isAlphanum || c == '.' || c == '-' || wsChar c

/-- Match `\s*\.\s*[a-z]{2,}` at the start of `l`; returns the number of
characters consumed.  Each `\s*` is deterministic (the following piece
cannot start with whitespace), and the final `[a-z]{2,}` is a maximal
letter run. -/
def emailTailMatchLen (l : List Char) : Option Nat :=
  let s1 := l.takeWhile wsChar
  match l.dropWhile wsChar with
  | '.' :: l2 =>
    let s2 := l2.takeWhile wsChar
    let letters := (l2.dropWhile wsChar).takeWhile Char.isAlpha
    if 2 ≤ letters.length then some (s1.length + 1 + s2.length + letters.length) else none
  | _ => none

/-- Backtracking of the greedy `[a-z0-9.\-\s]+` of `_EMAIL_FIND_REGEX`: try
the longest prefix first (`q` characters kept by the `+`), shrinking until
the tail `\s*\.\s*[a-z]{2,}` matches.  Returns `(q, tail length)`. -/
def emailTrySplit (cRun : List Char) : Nat → Option (Nat × Nat)
| 0 => none
| q + 1 =>
  match emailTailMatchLen (cRun.drop (q + 1)) with
  | some t => some (q + 1, t)
  | none => emailTrySplit cRun q

/-- Match `_EMAIL_FIND_REGEX` at the current position.  The greedy
`[a-z0-9._%+\-\s]*\s*@` forces the `@` to sit at the end of the maximal
local-class run (whitespace is inside the class, so giving characters back
to `\s*` cannot move the `@`). -/
def matchEmailAt : List Char → Option (List Char × List Char)
| [] => none
| c :: cs =>
  if c.isAlphanum then
    let bRun := cs.takeWhile findLocalClass
    match cs.dropWhile findLocalClass with
    | '@' :: tail =>
      let cRun := tail.takeWhile findDomainClass
      match emailTrySplit cRun cRun.length with
      | some (q, t) =>
        let consumed := 1 + bRun.length + 1 + q + t
        some ((c :: cs).take consumed, (c :: cs).drop consumed)
      | none => none
    | _ => none
  else none

/-- Scan `finditer` for `_EMAIL_FIND_REGEX`: leftmost matches, scanning resumes
after each match. -/
def emailFindAux : Nat → List Char → List (List Char)
| 0, _ => []
| _ + 1, [] => []
| fuel + 1, c :: cs =>
  match matchEmailAt (c :: cs) with
  | some (m, r) => m :: emailFindAux fuel r
  | none => emailFindAux fuel cs

/-- All `_EMAIL_FIND_REGEX` candidate substrings of `l`. -/
def emailFindAll (l : List Char) : List (List Char) :=
  emailFindAux l.length l

/-- Class `[a-z0-9]` without `re.I` (the inner patterns of `_normalize_one`). -/
def azdL (c : Char) : Bool :=
  c.isLower || c.isDigit

/-- The separator class `[-_.]`. -/
def sepChar3 (c : Char) : Bool :=
  c == '-' || c == '_' || c == '.'

/-- The repeated group `(?:[-_.][a-z0-9])*`, counting repetitions; `none`
when the remainder is not exactly a sequence of such groups. -/
def groupsAll : List Char → Option Nat
| [] => some 0
| s :: c :: rest => if sepChar3 s && azdL c then (groupsAll rest).map (· + 1) else none
| _ :: [] => none

/-- Pattern `re.fullmatch(r"[a-z0-9](?:[-_.][a-z0-9]){3,}", local)`: a
letter-by-letter spelling such as `k-e-n-a-n`. -/
def isSpelledLocal (l : List Char) : Bool :=
  match l with
  | c :: rest =>
    azdL c &&
      (match groupsAll rest with
       | some k => decide (3 ≤ k)
       | none => false)
  | [] => false

/-- Leading repetitions of `-[a-z0-9]`. -/
def hyphenPairs : List Char → Nat
| '-' :: c :: rest => if azdL c then 1 + hyphenPairs rest else 0
| _ => 0

/-- Scan for `(?:^|[^a-z0-9])[a-z0-9](?:-[a-z0-9]){2,}` (the flag tells
whether the current position is the start or preceded by a non-alnum
character). -/
def hasHyphenSpellingAux : Bool → List Char → Bool
| _, [] => false
| prevOk, c :: rest =>
  (prevOk && azdL c && decide (2 ≤ hyphenPairs rest)) || hasHyphenSpellingAux (!azdL c) rest

/-- Pattern `re.search(r"(?:^|[^a-z0-9])[a-z0-9](?:-[a-z0-9]){2,}", local)`. -/
def hasHyphenSpelling (l : List Char) : Bool :=
  hasHyphenSpellingAux true l

/-- Pattern `re.sub(r"\.{2,}", ".", s)`: collapse runs of two or more dots. -/
def collapseDotAux : Bool → List Char → List Char
| _, [] => []
| prevDot, c :: cs =>
  if c == '.' then
    (if prevDot then collapseDotAux true cs else '.' :: collapseDotAux true cs)
  else c :: collapseDotAux false cs

/-- Collapse dot runs (fresh scan). -/
def collapseDotRuns (l : List Char) : List Char :=
  collapseDotAux false l

/-- Python `str.strip(".")`. -/
def stripDotsEnds (l : List Char) : List Char :=
  ((l.dropWhile (· == '.')).reverse.dropWhile (· == '.')).reverse

/-- One `re.sub(r"([a-z0-9])xyz$", r"\1.xyz", domain)` pass: insert a dot
before a glued trailing TLD. -/
def fixTldOne (suffix : List Char) (dm : List Char) : List Char :=
  let r := dm.reverse
  if leadsWith suffix.reverse r then
    match r.drop suffix.length with
    | c :: restR => if azdL c then (suffix.reverse ++ '.' :: c :: restR).reverse else dm
    | [] => dm
  else dm

/-- The three TLD-repair passes, in source order (`com`, `net`, `org`). -/
def fixTld (dm : List Char) : List Char :=
  fixTldOne ("org").data (fixTldOne ("net").data (fixTldOne ("com").data dm))

/-- Table `_DOMAIN_FIX`. -/
def domainFixTable : List (List Char × List Char) :=
  [(("gamil.com").data, ("gmail.com").data),
   (("gmial.com").data, ("gmail.com").data),
   (("gmail.con").data, ("gmail.com").data),
   (("hotmial.com").data, ("hotmail.com").data),
   (("outllok.com").data, ("outlook.com").data)]

/-- Apply `_DOMAIN_FIX` (exact-key dictionary lookup). -/
def domainFixup (dm : List Char) : List Char :=
  match List.lookup dm domainFixTable with
  | some v => v
  | none => dm

/-- Source `_normalize_one`: normalize a single email candidate. -/
def _normalize_one (candidate : List Char) : List Char :=
  let s := toLowerL (trimL candidate)
  let s := stripTrailingPunct s
  let s := _apply_word_map s
  let s := s.filter (fun c => !wsChar c)
  let s := stripTrailingPunct s
  if s.contains '@' then
    let lp := s.takeWhile (fun c => !(c == '@'))
    let dm := (s.dropWhile (fun c => !(c == '@'))).drop 1
    let lp := if isSpelledLocal lp then lp.filter (fun c => !sepChar3 c) else lp
    let lp := if hasHyphenSpelling lp then lp.filter (fun c => !(c == '-')) else lp
    let dm := stripDotsEnds (collapseDotRuns dm)
    let dm := domainFixup (fixTld dm)
    lp ++ '@' :: dm
  else s

/-- Local-part class `[a-z0-9._%+\-]` of `_EMAIL_REGEX` (with `re.I`). -/
def localClassC (c : Char) : Bool :=
  c.isAlphanum || c == '.' || c == '_' || c == '%' || c == '+' || c == '-'

/-- Domain class `[a-z0-9.\-]` of `_EMAIL_REGEX` (with `re.I`). -/
def domClassC (c : Char) : Bool :=
  c.isAlphanum || c == '.' || c == '-'

/-- The `[a-z0-9.\-]+\.[a-z]{2,}$` part of `_EMAIL_REGEX`: the suffix after
the last dot must be two or more letters, and a nonempty class-conforming
prefix must precede that dot. -/
def emailDomainShape (dm : List Char) : Bool :=
  let r := dm.reverse
  let tld := r.takeWhile Char.isAlpha
  decide (2 ≤ tld.length) &&
    (match r.drop tld.length with
     | '.' :: before => !before.isEmpty && before.all domClassC
     | _ => false)

/-- Validation `_EMAIL_REGEX.match(norm)` (the pattern is anchored on both sides). -/
def emailRegexMatch (l : List Char) : Bool :=
  match l with
  | c :: rest =>
    c.isAlphanum &&
      (match rest.dropWhile localClassC with
       | '@' :: dm => emailDomainShape dm
       | _ => false)
  | [] => false

/-- The candidate loop of `normalize_email`: normalize, collapse dot runs,
strip trailing punctuation, and return the first candidate that validates
against `_EMAIL_REGEX`. -/
def firstValidEmail : List (List Char) → Option String
| [] => none
| cand :: rest =>
  if emailRegexMatch (stripTrailingPunct (collapseDotRuns (_normalize_one cand))) then
    some (String.mk (stripTrailingPunct (collapseDotRuns (_normalize_one cand))))
  else firstValidEmail rest

/-- Source `normalize_email` (`quote_tools.py`, lines 114-145). -/
def normalize_email (raw : String) : Option String :=
  if (trimL raw.data).isEmpty then none
  else
    let text := toLowerL (trimL raw.data)
    let text := stripTrailingPunct (_apply_word_map text)
    let cands := emailFindAll text
    firstValidEmail (if cands.isEmpty then [text] else cands)

/-! The quote extraction pipeline (`_extract_quote_info_phone`,
`acs_call_handler.py` lines 1212-1461)

External effects become explicit inputs: `sfAvailable` is
`sf_service.is_available()`, `catalog` is the outcome of the Salesforce
product query (its exception is caught locally and merely leaves the
product list empty), `openaiConfigured` is the presence of
`AZURE_OPENAI_ENDPOINT` (the deployment name has a hard-coded default and
is always truthy), and `llm` is the outcome of the chat-completion call
together with JSON parsing of its reply; a raising call lands in the
function-wide exception handler.  `matcher` is `_find_best_product_match`. -/

def _extract_quote_info_phone (sfAvailable : Bool) (catalog : Except Unit (List String))
    (openaiConfigured : Bool) (llm : Except Unit Extracted)
    (matcher : String → List String → Option String) (current : QuoteState) : QuoteState :=
  let products := if sfAvailable then (match catalog with | Except.ok ps => ps | Except.error _ => []) else []
  if !openaiConfigured then fallbackQuoteState current.extracted
  else
    match llm with
    | Except.error _ => fallbackQuoteState current.extracted
    | Except.ok newE =>
      let e := mergeExtractedScalars current.extracted newE
      let e := if newE.quote_items.isEmpty then e
               else { e with quote_items := mergeQuoteItems e.quote_items newE.quote_items }
      let e := if !e.quote_items.isEmpty && !products.isEmpty then
                 { e with quote_items := matchItemsPhone matcher products e.quote_items }
               else e
      let e := match e.contact_info with
               | some c =>
                 if c = "" then e
                 else
                   match normalize_email c with
                   | some n => { e with contact_info := some n }
                   | none => e
               | none => e
      mkQuoteState e products

/-! Call store operations (`acs_call_handler.py`) -/

/-- Point update of the `_active_acs_calls` dictionary. -/
def storeUpdate (s : Store) (id : String) (r : CallRecord) : Store :=
  fun k => if k = id then some r else s k

/-- Operation `_active_acs_calls.pop(id)` guarded by membership (an absent id is left
absent, with only a log line). -/
def storeRemove (s : Store) (id : String) : Store :=
  fun k => if k = id then none else s k

/-- The record written by `handle_incoming_call_event` after a successful
`answer_call` (lines 208-221): a fresh record with status `answered`,
no history and no quote state.  The write is an unconditional dictionary
assignment. -/
def freshAnsweredRecord (phone : Option String) : CallRecord :=
  { status := "answered", caller_phone := phone, conversation_history := [], quote_state := none }

/-- Store effect of `handle_incoming_call_event` (lines 208-221). -/
def handle_incoming_call_store (s : Store) (id : String) (phone : Option String) : Store :=
  storeUpdate s id (freshAnsweredRecord phone)

/-- Store effect of `handle_call_disconnected_event` (lines 269-291). -/
def handle_call_disconnected_store (s : Store) (id : String) : Store :=
  storeRemove s id

/-- The record created by `handle_recognize_completed` for an unknown call
id (lines 414-420): `{"call_connection_id": ..., "status": "active"}`. -/
def freshActiveRecord : CallRecord :=
  { status := "active", caller_phone := none, conversation_history := [], quote_state := none }

/-- Store effect of the state-initialization step of
`handle_recognize_completed` (lines 405-420): an empty transcript returns
early (restarting recognition only); a non-empty transcript for a truthy
call id that is not in the store re-creates a fresh record. -/
def recognize_completed_init_store (s : Store) (id : String) (transcript : String) : Store :=
  if transcript = "" then s
  else if id != "" && (s id).isNone then storeUpdate s id freshActiveRecord else s

/-! Confirmation handling and the quote-creation branch -/

/-- Completeness flag read off `call_info.get("quote_state", {})`
(`{}.get("is_complete")` is falsy). -/
def qsComplete (qs : Option QuoteState) : Bool :=
  match qs with
  | some q => q.is_complete
  | none => false

/-- Normalization of the utterance in `_is_confirmation` (lines 865-867):
lower-case, strip, replace every character outside `[a-z\s]` by a space,
collapse whitespace runs, strip. -/
def subNonAzWs (l : List Char) : List Char :=
  l.map (fun c => if c.isLower || wsChar c then c else ' ')

/-- Pattern `re.sub(r"\s+", " ", s)`: replace each whitespace run by one space. -/
def collapseWsAux : Bool → List Char → List Char
| _, [] => []
| prevWs, c :: cs =>
  if wsChar c then
    (if prevWs then collapseWsAux true cs else ' ' :: collapseWsAux true cs)
  else c :: collapseWsAux false cs

/-- Collapse whitespace runs (fresh scan). -/
def collapseWsL (l : List Char) : List Char :=
  collapseWsAux false l

/-- The full normalization of `_is_confirmation`. -/
def normalizeConfirmText (s : String) : String :=
  String.mk (trimL (collapseWsL (subNonAzWs (trimL (toLowerL s.data)))))

/-- Plain case-and-whitespace normalization (lower-case, trim, collapse
whitespace runs) — the normalization named by the specification for the
confirmation fast path; used to compare against the code's normalization. -/
def caseWsNormalize (s : String) : String :=
  String.mk (trimL (collapseWsL (trimL (toLowerL s.data))))

/-- Source `_is_confirmation` (lines 863-943).  The language-model classifier is
the `llm` input; the returned pair also counts how often it was invoked.
A missing endpoint or a raising call yields `False`. -/
def _is_confirmation (userText : String) (_qs : Option QuoteState)
    (endpointConfigured : Bool) (llm : Except Unit Bool) : Bool × Nat :=
  if normalizeConfirmText userText = "yes" ∨ normalizeConfirmText userText = "confirm" then (true, 0)
  else if !endpointConfigured then (false, 0)
  else
    match llm with
    | Except.ok b => (b, 1)
    | Except.error _ => (false, 1)

/-- Source `_build_quote_confirmation_recap` (lines 946-969). -/
def _build_quote_confirmation_recap (qs : Option QuoteState) : String :=
  let e := match qs with
           | some q => q.extracted
           | none => { customer_name := none, contact_info := none, quote_items := [],
                       expected_start_date := none, notes := none }
  let validItems := e.quote_items.filter (fun it => truthyStr it.product_package && truthyInt it.quantity)
  let productText :=
    if validItems.isEmpty then ("not provided")
    else String.intercalate (", ") (validItems.map (fun it => (it.product_package.getD ("")) ++ " x" ++ toString (it.quantity.getD 0)))
  "Let me recap: name " ++ pyOrStr e.customer_name ("not provided") ++
  ", contact " ++ pyOrStr e.contact_info ("not provided") ++
  ", products " ++ productText ++
  ", expected start date " ++ pyOrStr e.expected_start_date ("not provided") ++
  ", notes " ++ pyOrStr e.notes ("none") ++ "."

/-- The success reply of the quote-confirmation branch (lines 512-517),
built around `quote_result.get("quote_number", "N/A")`. -/
def success_message (r : QuoteResult) : String :=
  "Great! I\x27ve created your quote. The quote number is " ++ r.quote_number.getD ("N/A") ++
  ". An email with the quote details has been sent to your email address. Is there anything else I can help you with?"

/-- The apology reply of the quote-confirmation branch (lines 524-527). -/
def retry_later_message : String :=
  "I\x27m sorry, I couldn\x27t create the quote at this time. Please try again later or contact our support team."

/-- Operation `record.pop("quote_state", None)` guarded by store membership
(lines 519-521). -/
def removeQuoteState (s : Store) (id : String) : Store :=
  fun k =>
    if k = id then
      match s k with
      | some r => some { r with quote_state := none }
      | none => none
    else s k

/-- Outcome of the decision section of `handle_recognize_completed`:
the spoken reply, the updated store, and how often
`create_quote_from_state` was invoked. -/
structure RecognizeOutcome where
  answer : String
  store : Store
  finalizerCalls : Nat

/-- Decision section of `handle_recognize_completed` (lines 491-538):
`finalizer` is the result of `create_quote_from_state` (the quote
finalizer, `None` on failure), `quoteUpdated` and `gptAnswer` come from
`generate_answer_text_with_gpt`. -/
def recognize_completed_confirm_branch (s : Store) (id : String) (qs : Option QuoteState)
    (isConf quoteUpdated : Bool) (gptAnswer : String) (finalizer : Option QuoteResult) : RecognizeOutcome :=
  if qsComplete qs && isConf then
    match finalizer with
    | some r => { answer := success_message r, store := removeQuoteState s id, finalizerCalls := 1 }
    | none => { answer := retry_later_message, store := s, finalizerCalls := 1 }
  else if quoteUpdated && qsComplete qs then
    { answer := _build_quote_confirmation_recap qs ++
        " Please say \x27confirm\x27 or \x27yes\x27 to create the quote, or let me know if you\x27d like to make any changes."
      store := s, finalizerCalls := 0 }
  else
    { answer := gptAnswer, store := s, finalizerCalls := 0 }

/-! Concrete instances used by counterexamples and witnesses -/

/-- An empty extraction structure. -/
def emptyExtracted : Extracted :=
  { customer_name := none, contact_info := none, quote_items := [],
    expected_start_date := none, notes := none }

/-- A quote state with nothing collected yet. -/
def emptyQuoteState : QuoteState :=
  fallbackQuoteState emptyExtracted

/-- An extraction output carrying only a customer name. -/
def nameOnlyExtracted : Extracted :=
  { emptyExtracted with customer_name := some ("John") }

/-- A store holding one connected call with some history. -/
def connectedRecord : CallRecord :=
  { status := "connected", caller_phone := some ("+15550100"),
    conversation_history := [{ role := "user", content := "hi" }], quote_state := none }

/-- A complete quote state for the confirmation branch. -/
def completeQuoteState : QuoteState :=
  { extracted := { customer_name := some ("John Doe"), contact_info := some ("john@x.com"),
                   quote_items := [{ product_package := some ("Widget"), quantity := some 3 }],
                   expected_start_date := none, notes := none }
    missing_fields := []
    products_available := ["Widget"]
    is_complete := true }

/-- A call record holding the complete quote state. -/
def completeCallRecord : CallRecord :=
  { status := "connected", caller_phone := some ("+15550100"),
    conversation_history := [], quote_state := some completeQuoteState }

/-- A successful quote-creation result. -/
def sampleQuoteResult : QuoteResult :=
  { quote_id := some ("0Q0xx0000001"), quote_number := some ("Q-0042"),
    quote_url := some ("https://example.my.salesforce.com/0Q0xx0000001") }

/-- A store holding one call with conversational state, keyed `c1`. -/
def c1Store : Store :=
  storeUpdate (fun _ => none) ("c1") connectedRecord

/-- A store holding one call whose quote state is complete, keyed `c1`. -/
def confirmStore : Store :=
  storeUpdate (fun _ => none) ("c1") completeCallRecord

/-! Helper lemmas -/

theorem leadsWith_self_append (a b : List Char) : leadsWith a (a ++ b) = true := by
  induction a with
  | nil => rfl
  | cons c as ih => simp [leadsWith, ih]

theorem occursIn_of_leadsWith (n h : List Char) (hl : leadsWith n h = true) :
    occursIn n h = true := by
  cases h with
  | nil =>
    cases n with
    | nil => rfl
    | cons c cs => simp [leadsWith] at hl
  | cons c cs => simp [occursIn, hl]

theorem occursIn_append_left (a n t : List Char) (h : occursIn n t = true) :
    occursIn n (a ++ t) = true := by
  induction a with
  | nil => simpa using h
  | cons c cs ih =>
    show (leadsWith n (c :: (cs ++ t)) || occursIn n (cs ++ t)) = true
    rw [ih]
    simp

theorem occursIn_sandwich (pre mid post : List Char) :
    occursIn mid (pre ++ (mid ++ post)) = true :=
  occursIn_append_left pre mid (mid ++ post)
    (occursIn_of_leadsWith mid (mid ++ post) (leadsWith_self_append mid post))

theorem setQuantityFirst_some_names (name : String) (q : Option Int) :
    ∀ l l' : List QuoteItem, setQuantityFirst name q l = some l' → itemNames l' = itemNames l := by
  intro l
  induction l with
  | nil => intro l' h; simp [setQuantityFirst] at h
  | cons it rest ih =>
    intro l' h
    by_cases hpp : it.product_package = some name
    · rw [setQuantityFirst, if_pos hpp] at h
      cases h
      simp [itemNames, List.filterMap_cons]
    · rw [setQuantityFirst, if_neg hpp] at h
      cases hrec : setQuantityFirst name q rest with
      | none => rw [hrec] at h; cases h
      | some rest' =>
        rw [hrec] at h
        cases h
        have := ih rest' hrec
        simp [itemNames, List.filterMap_cons] at this ⊢
        cases it.product_package <;> simp [this]

theorem setQuantityFirst_none_not_mem (name : String) (q : Option Int) :
    ∀ l : List QuoteItem, setQuantityFirst name q l = none → name ∉ itemNames l := by
  intro l
  induction l with
  | nil => intro _ h; simp [itemNames] at h
  | cons it rest ih =>
    intro h
    by_cases hpp : it.product_package = some name
    · rw [setQuantityFirst, if_pos hpp] at h; cases h
    · rw [setQuantityFirst, if_neg hpp] at h
      cases hrec : setQuantityFirst name q rest with
      | some rest' => rw [hrec] at h; cases h
      | none =>
        have hrest := ih hrec
        intro hmem
        simp [itemNames, List.filterMap_cons] at hmem
        cases hval : it.product_package with
        | none => rw [hval] at hmem; simp at hmem; exact hrest (by simpa [itemNames] using hmem)
        | some nm =>
          rw [hval] at hmem
          simp at hmem
          rcases hmem with hmem | hmem
          · exact hpp (by rw [hval, hmem])
          · exact hrest (by simpa [itemNames] using hmem)

theorem mergeQuoteItems_nodup :
    ∀ (news existing : List QuoteItem), (itemNames existing).Nodup →
      (itemNames (mergeQuoteItems existing news)).Nodup := by
  intro news
  induction news with
  | nil => intro existing h; simpa [mergeQuoteItems] using h
  | cons ni rest ih =>
    intro existing h
    cases hpp : ni.product_package with
    | none => simp only [mergeQuoteItems, hpp]; exact ih existing h
    | some name =>
      simp only [mergeQuoteItems, hpp]
      by_cases hname : name = ""
      · rw [if_pos hname]; exact ih existing h
      · rw [if_neg hname]
        cases hset : setQuantityFirst name ni.quantity existing with
        | some updated =>
          exact ih updated (by rw [setQuantityFirst_some_names name ni.quantity existing updated hset]; exact h)
        | none =>
          apply ih
          have hnames : itemNames (existing ++ [ni]) = itemNames existing ++ [name] := by
            simp [itemNames, List.filterMap_append, hpp]
          rw [hnames]
          exact h.append (by simp) (by
            intro x hx hx'
            simp at hx'
            exact setQuantityFirst_none_not_mem name ni.quantity existing hset (hx' ▸ hx))

theorem matchItemsPhone_quantities (matcher : String → List String → Option String)
    (products : List String) :
    ∀ items : List QuoteItem,
      (∀ it ∈ items, ∀ q : Int, it.quantity = some q → 0 ≤ q) →
      ∀ out ∈ matchItemsPhone matcher products items,
        ∃ q : Int, out.quantity = some q ∧ 1 ≤ q ∧ ∃ p, out.product_package = some p := by
  intro items
  induction items with
  | nil => intro _ out h; simp [matchItemsPhone] at h
  | cons it rest ih =>
    intro hnn out hout
    have hrest : ∀ it' ∈ rest, ∀ q : Int, it'.quantity = some q → 0 ≤ q :=
      fun it' h' => hnn it' (List.mem_cons_of_mem it h')
    cases hpp : it.product_package with
    | none =>
      simp only [matchItemsPhone, hpp] at hout
      exact ih hrest out hout
    | some p =>
      simp only [matchItemsPhone, hpp] at hout
      by_cases hp : p = ""
      · rw [if_pos hp] at hout; exact ih hrest out hout
      · rw [if_neg hp] at hout
        rcases List.mem_cons.mp hout with hout | hout
        · subst hout
          refine ⟨pyOr1 it.quantity, rfl, ?_, ⟨(matcher p products).getD p, rfl⟩⟩
          cases hq : it.quantity with
          | none => simp [pyOr1]
          | some q =>
            have hq0 : 0 ≤ q := hnn it (List.mem_cons_self it rest) q hq
            by_cases hz : q = 0
            · simp [pyOr1, hz]
            · simp only [pyOr1, if_neg hz]
              omega
        · exact ih hrest out hout

theorem matchItemsTool_quantities (matcher : String → List String → Option String)
    (products : List String) :
    ∀ items : List QuoteItem,
      (∀ it ∈ items, ∀ q : Int, it.quantity = some q → 0 ≤ q) →
      ∀ out ∈ matchItemsTool matcher products items,
        ∃ q : Int, out.quantity = some q ∧ 1 ≤ q := by
  intro items
  induction items with
  | nil => intro _ out h; simp [matchItemsTool] at h
  | cons it rest ih =>
    intro hnn out hout
    have hrest : ∀ it' ∈ rest, ∀ q : Int, it'.quantity = some q → 0 ≤ q :=
      fun it' h' => hnn it' (List.mem_cons_of_mem it h')
    have hone : ∀ q : Int, it.quantity = some q → (1 ≤ pyOr1 it.quantity ∨ True) := fun _ _ => Or.inr trivial
    have hq1 : (∀ q : Int, it.quantity = some q → 0 ≤ q) → 1 ≤ pyOr1 it.quantity := by
      intro h
      cases hq : it.quantity with
      | none => simp [pyOr1]
      | some q =>
        have hq0 : 0 ≤ q := h q hq
        by_cases hz : q = 0
        · simp [pyOr1, hz]
        · simp only [pyOr1, if_neg hz]
          omega
    cases hpp : it.product_package with
    | none =>
      simp only [matchItemsTool, hpp] at hout
      exact ih hrest out hout
    | some p =>
      simp only [matchItemsTool, hpp] at hout
      by_cases hp : p = ""
      · rw [if_pos hp] at hout; exact ih hrest out hout
      · rw [if_neg hp] at hout
        by_cases hprod : products.isEmpty
        · rw [if_pos hprod] at hout
          rcases List.mem_cons.mp hout with hout | hout
          · subst hout; exact ⟨1, rfl, le_refl 1⟩
          · exact ih hrest out hout
        · rw [if_neg hprod] at hout
          have hle : 1 ≤ pyOr1 it.quantity := hq1 (fun q hq => hnn it (List.mem_cons_self it rest) q hq)
          cases hm : matcher p products with
          | some m =>
            rw [hm] at hout
            rcases List.mem_cons.mp hout with hout | hout
            · subst hout; exact ⟨pyOr1 it.quantity, rfl, hle⟩
            · exact ih hrest out hout
          | none =>
            rw [hm] at hout
            rcases List.mem_cons.mp hout with hout | hout
            · subst hout; exact ⟨pyOr1 it.quantity, rfl, hle⟩
            · exact ih hrest out hout

theorem filterNonWs_cons_ws (c : Char) (l : List Char) (h : wsChar c = true) :
    filterNonWs (c :: l) = filterNonWs l := by
  simp [filterNonWs, List.filter_cons, h]

theorem filterNonWs_cons_keep (c : Char) (l : List Char) (h : wsChar c = false) :
    filterNonWs (c :: l) = c :: filterNonWs l := by
  simp [filterNonWs, List.filter_cons, h]

theorem filterNonWs_collapseAux : ∀ (l : List Char) (b : Bool),
    filterNonWs (collapseWsAux b l) = filterNonWs l := by
  intro l
  induction l with
  | nil => intro b; rfl
  | cons c cs ih =>
    intro b
    by_cases hc : wsChar c = true
    · cases b with
      | false =>
        rw [show collapseWsAux false (c :: cs) = ' ' :: collapseWsAux true cs from by
              simp [collapseWsAux, hc]]
        rw [filterNonWs_cons_ws ' ' _ (by decide), ih true, filterNonWs_cons_ws c cs hc]
      | true =>
        rw [show collapseWsAux true (c :: cs) = collapseWsAux true cs from by
              simp [collapseWsAux, hc]]
        rw [ih true, filterNonWs_cons_ws c cs hc]
    · rw [show collapseWsAux b (c :: cs) = c :: collapseWsAux false cs from by
            simp [collapseWsAux, hc]]
      rw [filterNonWs_cons_keep c _ (by simpa using hc), ih false,
        filterNonWs_cons_keep c cs (by simpa using hc)]

theorem filterNonWs_dropWhileWs : ∀ l : List Char,
    filterNonWs (l.dropWhile wsChar) = filterNonWs l := by
  intro l
  induction l with
  | nil => rfl
  | cons c cs ih =>
    by_cases hc : wsChar c = true
    · rw [List.dropWhile_cons, if_pos hc, ih, filterNonWs_cons_ws c cs hc]
    · rw [List.dropWhile_cons, if_neg hc]

theorem filterNonWs_reverse (l : List Char) :
    filterNonWs l.reverse = (filterNonWs l).reverse := by
  simp [filterNonWs, List.filter_reverse]

theorem filterNonWs_trimL (l : List Char) :
    filterNonWs (trimL l) = filterNonWs l := by
  unfold trimL
  rw [filterNonWs_reverse, filterNonWs_dropWhileWs, filterNonWs_reverse,
    filterNonWs_dropWhileWs, List.reverse_reverse]

theorem mem_of_mem_dropWhile (p : Char → Bool) :
    ∀ l : List Char, ∀ c ∈ l.dropWhile p, c ∈ l := by
  intro l
  induction l with
  | nil => intro c h; simp at h
  | cons a as ih =>
    intro c h
    rw [List.dropWhile_cons] at h
    by_cases ha : p a = true
    · rw [if_pos ha] at h
      exact List.mem_cons_of_mem a (ih c h)
    · rw [if_neg ha] at h
      exact h

theorem mem_of_mem_trimL (l : List Char) (c : Char) (h : c ∈ trimL l) : c ∈ l := by
  unfold trimL at h
  rw [List.mem_reverse] at h
  have h1 := mem_of_mem_dropWhile wsChar _ c h
  rw [List.mem_reverse] at h1
  exact mem_of_mem_dropWhile wsChar l c h1

theorem subNonAzWs_id : ∀ l : List Char,
    (∀ c ∈ l, c.isLower = true ∨ wsChar c = true) → subNonAzWs l = l := by
  intro l
  induction l with
  | nil => intro _; rfl
  | cons c cs ih =>
    intro h
    have hc : c.isLower || wsChar c := by
      rcases h c (List.mem_cons_self c cs) with h1 | h1 <;> simp [h1]
    simp only [subNonAzWs, List.map_cons, if_pos hc]
    have := ih (fun c' h' => h c' (List.mem_cons_of_mem c h'))
    simpa [subNonAzWs] using this

theorem filterNonWs_caseWsNormalize (s : String) :
    filterNonWs (caseWsNormalize s).data = filterNonWs (trimL (toLowerL s.data)) := by
  show filterNonWs (trimL (collapseWsL (trimL (toLowerL s.data)))) = _
  rw [filterNonWs_trimL]
  unfold collapseWsL
  rw [filterNonWs_collapseAux]

theorem normalizeConfirmText_eq_of_letters (s : String)
    (h : ∀ c ∈ filterNonWs (trimL (toLowerL s.data)), c.isLower = true) :
    normalizeConfirmText s = caseWsNormalize s := by
  unfold normalizeConfirmText caseWsNormalize
  have hsub : subNonAzWs (trimL (toLowerL s.data)) = trimL (toLowerL s.data) := by
    apply subNonAzWs_id
    intro c hc
    by_cases hw : wsChar c = true
    · exact Or.inr hw
    · refine Or.inl (h c ?_)
      simp [filterNonWs, List.mem_filter, hc, hw]
  rw [hsub]

theorem firstValidEmail_shape :
    ∀ (cands : List (List Char)) (v : String),
      firstValidEmail cands = some v → emailRegexMatch v.data = true := by
  intro cands
  induction cands with
  | nil => intro v h; simp [firstValidEmail] at h
  | cons cand rest ih =>
    intro v h
    rw [firstValidEmail] at h
    generalize hgen : stripTrailingPunct (collapseDotRuns (_normalize_one cand)) = norm at h
    by_cases hb : emailRegexMatch norm = true
    · rw [if_pos hb] at h
      cases h
      exact hb
    · rw [if_neg hb] at h
      exact ih v h

/-! Claim theorems -/

/-- C1 (counterexample): after `CallDisconnected` removes call `c1`, a
stale `RecognizeCompleted` carrying a non-empty transcript for `c1` is NOT
a no-op — the handler re-creates a fresh record with status `active` for
that call id, so the store is changed. -/
theorem C1_counterexample :
    (handle_call_disconnected_store c1Store ("c1")) ("c1") = none
  ∧ (recognize_completed_init_store (handle_call_disconnected_store c1Store ("c1")) ("c1") ("I need a quote")) ("c1")
      = some freshActiveRecord := by
  constructor
  · rfl
  · decide

/-- C1 (amended): after `CallDisconnected` for a call id, looking the id up
returns absent, and a later `RecognizeCompleted` with an EMPTY transcript
leaves the store unchanged; but a `RecognizeCompleted` with a non-empty
transcript re-creates a fresh record (status `active`, no history, no
quote state) for that id instead of being discarded. -/
theorem C1_amended (s : Store) (id text : String) :
    (handle_call_disconnected_store s id) id = none
  ∧ recognize_completed_init_store (handle_call_disconnected_store s id) id ("") = handle_call_disconnected_store s id
  ∧ (text ≠ "" → id ≠ "" →
      (recognize_completed_init_store (handle_call_disconnected_store s id) id text) id = some freshActiveRecord) := by
  refine ⟨?_, rfl, ?_⟩
  · simp [handle_call_disconnected_store, storeRemove]
  · intro ht hid
    have h1 : (handle_call_disconnected_store s id) id = none := by
      simp [handle_call_disconnected_store, storeRemove]
    have h2 : (id != "") = true := by rw [bne_iff_ne]; exact hid
    rw [recognize_completed_init_store, if_neg ht, h1]
    simp [h2, storeUpdate]

/-- Witness for `C1_amended` at a concrete store, call id and transcript. -/
theorem C1_amended_witness :
    (recognize_completed_init_store (handle_call_disconnected_store c1Store ("c1")) ("c1") ("hello")) ("c1")
      = some freshActiveRecord :=
  (C1_amended c1Store ("c1") ("hello")).2.2 (by decide) (by decide)

/-- C2: scalar-field merge monotonicity.  A `null` extraction output leaves
the stored value; along any sequence of merges a non-null value never
becomes null; the stored value changes only when the new value is a
non-null, non-empty string; and in the extraction pipeline each of the four
scalar fields is left untouched by a `null` output for it. -/
theorem C2_merge_monotonicity (old : Option String) (news : List (Option String)) (cur newE : Extracted) :
    mergeScalar old none = old
  ∧ (old ≠ none → List.foldl mergeScalar old news ≠ none)
  ∧ (∀ n, mergeScalar old n ≠ old → ∃ s, n = some s ∧ s ≠ "")
  ∧ (newE.customer_name = none → (mergeExtractedScalars cur newE).customer_name = cur.customer_name)
  ∧ (newE.contact_info = none → (mergeExtractedScalars cur newE).contact_info = cur.contact_info)
  ∧ (newE.expected_start_date = none → (mergeExtractedScalars cur newE).expected_start_date = cur.expected_start_date)
  ∧ (newE.notes = none → (mergeExtractedScalars cur newE).notes = cur.notes) := by
  have step : ∀ (o : Option String) (n : Option String), o ≠ none → mergeScalar o n ≠ none := by
    intro o n ho
    cases n with
    | none => exact ho
    | some s =>
      by_cases hs : s = "" <;> simp [mergeScalar, hs]
      exact ho
  have fold : ∀ (ns : List (Option String)) (o : Option String), o ≠ none →
      List.foldl mergeScalar o ns ≠ none := by
    intro ns
    induction ns with
    | nil => intro o ho; simpa using ho
    | cons n ns ih =>
      intro o ho
      rw [List.foldl_cons]
      exact ih (mergeScalar o n) (step o n ho)
  refine ⟨rfl, fold news old, ?_, ?_, ?_, ?_, ?_⟩
  · intro n hn
    cases n with
    | none => exact absurd rfl hn
    | some s =>
      by_cases hs : s = ""
      · rw [mergeScalar, if_pos hs] at hn
        exact absurd rfl hn
      · exact ⟨s, rfl, hs⟩
  · intro h; simp [mergeExtractedScalars, h, mergeScalar]
  · intro h; simp [mergeExtractedScalars, h, mergeScalar]
  · intro h; simp [mergeExtractedScalars, h, mergeScalar]
  · intro h; simp [mergeExtractedScalars, h, mergeScalar]

/-- Witness for `C2_merge_monotonicity`: after merging a `null` and an
empty-string output into a filled name the value is still non-null, and a
`null` output leaves the pipeline's merged `customer_name` unchanged. -/
theorem C2_merge_monotonicity_witness :
    List.foldl mergeScalar (some ("John")) [none, some ("")] ≠ none
  ∧ (mergeExtractedScalars nameOnlyExtracted emptyExtracted).customer_name = nameOnlyExtracted.customer_name :=
  ⟨(C2_merge_monotonicity (some ("John")) [none, some ("")] nameOnlyExtracted emptyExtracted).2.1 (by decide),
   (C2_merge_monotonicity (some ("John")) [none, some ("")] nameOnlyExtracted emptyExtracted).2.2.2.1 rfl⟩

/-- C3: merging extraction `[A:5, B:1]` into state `[A:2]` yields exactly
`[A:5, B:1]` (update-in-place by product name, append for new names), and
the merge never creates a duplicate entry for a product name: it preserves
distinctness of the product names. -/
theorem C3_quote_item_merge :
    mergeQuoteItems [{ product_package := some ("A"), quantity := some 2 }]
        [{ product_package := some ("A"), quantity := some 5 },
         { product_package := some ("B"), quantity := some 1 }]
      = [{ product_package := some ("A"), quantity := some 5 },
         { product_package := some ("B"), quantity := some 1 }]
  ∧ ∀ (existing news : List QuoteItem), (itemNames existing).Nodup →
      (itemNames (mergeQuoteItems existing news)).Nodup :=
  ⟨by decide, fun existing news h => mergeQuoteItems_nodup news existing h⟩

/-- Witness for `C3_quote_item_merge` at a concrete merge. -/
theorem C3_quote_item_merge_witness :
    (itemNames (mergeQuoteItems [{ product_package := some ("A"), quantity := some 2 }]
      [{ product_package := some ("B"), quantity := some 3 }])).Nodup :=
  C3_quote_item_merge.2 [{ product_package := some ("A"), quantity := some 2 }]
    [{ product_package := some ("B"), quantity := some 3 }] (by decide)

/-- C4: the missing-field computation.  `customer_name` is reported missing
iff the extracted name is absent/empty, likewise `contact_info`;
`quote_items` is reported missing iff no item has both a non-empty product
name and a quantity greater than zero; and `is_complete` holds iff
`missing_fields` is empty. -/
theorem C4_missing_fields (e : Extracted) (ps : List String) :
    (("customer_name" ∈ (mkQuoteState e ps).missing_fields) ↔ truthyStr e.customer_name = false)
  ∧ (("contact_info" ∈ (mkQuoteState e ps).missing_fields) ↔ truthyStr e.contact_info = false)
  ∧ (("quote_items" ∈ (mkQuoteState e ps).missing_fields) ↔ ∀ it ∈ e.quote_items, validQuoteItem it = false)
  ∧ ((mkQuoteState e ps).is_complete = true ↔ (mkQuoteState e ps).missing_fields = []) := by
  have hitems : (e.quote_items.filter validQuoteItem).isEmpty = true ↔
      ∀ it ∈ e.quote_items, validQuoteItem it = false := by
    rw [List.isEmpty_iff, List.filter_eq_nil_iff]
    constructor
    · intro h it hit
      have := h it hit
      simpa using this
    · intro h it hit
      simp [h it hit]
  simp only [mkQuoteState, computeMissingFields]
  cases h1 : truthyStr e.customer_name <;> cases h2 : truthyStr e.contact_info <;>
    cases h3 : (e.quote_items.filter validQuoteItem).isEmpty <;>
      simp_all [List.mem_append, List.isEmpty_iff]

/-- Witness for `C4_missing_fields` at the empty extraction. -/
theorem C4_missing_fields_witness :
    "customer_name" ∈ (mkQuoteState emptyExtracted []).missing_fields :=
  (C4_missing_fields emptyExtracted []).1.mpr rfl

/-- C5 (counterexample): when the Salesforce catalog lookup fails but the
language-model call succeeds, `_extract_quote_info_phone` does NOT return
the prior `extracted` unmodified — the catalog exception is swallowed
inside the function (the product list is just left empty) and the merge
still happens. -/
theorem C5_counterexample :
    (_extract_quote_info_phone true (Except.error ()) true (Except.ok nameOnlyExtracted)
        (fun _ _ => none) emptyQuoteState).extracted
      ≠ emptyQuoteState.extracted := by
  decide

/-- C5 (amended): whenever the language-model extraction call fails (or the
OpenAI endpoint is not configured), `_extract_quote_info_phone` returns the
prior `extracted` unmodified together with `missing_fields` defaulted to
all three required fields and `is_complete = false`; a catalog-lookup
failure alone is absorbed (the catalog is treated as empty) and extraction
proceeds. -/
theorem C5_amended (sfA : Bool) (cat : Except Unit (List String))
    (m : String → List String → Option String) (cur : QuoteState) (llm : Except Unit Extracted) :
    _extract_quote_info_phone sfA cat false llm m cur = fallbackQuoteState cur.extracted
  ∧ _extract_quote_info_phone sfA cat true (Except.error ()) m cur = fallbackQuoteState cur.extracted
  ∧ (fallbackQuoteState cur.extracted).extracted = cur.extracted
  ∧ (fallbackQuoteState cur.extracted).is_complete = false
  ∧ (fallbackQuoteState cur.extracted).missing_fields = ["customer_name", "contact_info", "quote_items"] :=
  ⟨rfl, rfl, rfl, rfl, rfl⟩

/-- C6: when the quote state is complete and the utterance is a
confirmation, the quote finalizer is invoked exactly once; on a non-null
result the spoken reply contains the generated quote number and
`quote_state` is removed from the call record; on a null result the
apologetic retry-later message is spoken and the store is unchanged. -/
theorem C6_confirmation_branch (s : Store) (id : String) (qs : Option QuoteState)
    (isConf quoteUpdated : Bool) (gptAnswer : String) (fin : Option QuoteResult)
    (hc : qsComplete qs = true) (hconf : isConf = true) :
    (recognize_completed_confirm_branch s id qs isConf quoteUpdated gptAnswer fin).finalizerCalls = 1
  ∧ (∀ r, fin = some r →
        occursIn (r.quote_number.getD ("N/A")).data
            (recognize_completed_confirm_branch s id qs isConf quoteUpdated gptAnswer fin).answer.data = true
      ∧ ∀ rec, (recognize_completed_confirm_branch s id qs isConf quoteUpdated gptAnswer fin).store id = some rec →
          rec.quote_state = none)
  ∧ (fin = none →
        (recognize_completed_confirm_branch s id qs isConf quoteUpdated gptAnswer fin).answer = retry_later_message
      ∧ (recognize_completed_confirm_branch s id qs isConf quoteUpdated gptAnswer fin).store = s) := by
  subst hconf
  simp only [recognize_completed_confirm_branch, hc, Bool.and_self, if_pos]
  cases fin with
  | none =>
    refine ⟨rfl, ?_, fun _ => ⟨rfl, rfl⟩⟩
    intro r h
    cases h
  | some r0 =>
    refine ⟨rfl, ?_, fun h => by cases h⟩
    intro r h
    cases h
    constructor
    · show occursIn (r0.quote_number.getD ("N/A")).data (success_message r0).data = true
      unfold success_message
      rw [String.data_append, String.data_append, List.append_assoc]
      exact occursIn_sandwich _ _ _
    · intro rec hrec
      have hrec' : (removeQuoteState s id) id = some rec := hrec
      simp only [removeQuoteState, if_pos] at hrec'
      cases hs : s id with
      | none => rw [hs] at hrec'; cases hrec'
      | some r1 =>
        rw [hs] at hrec'
        cases hrec'
        rfl

/-- Witness for `C6_confirmation_branch`: a concrete complete quote,
confirmed, with a successful finalizer result whose quote number `Q-0042`
appears in the reply. -/
theorem C6_confirmation_branch_witness :
    (recognize_completed_confirm_branch confirmStore ("c1") (some completeQuoteState) true false ("x")
        (some sampleQuoteResult)).finalizerCalls = 1
  ∧ occursIn ("Q-0042").data
      (recognize_completed_confirm_branch confirmStore ("c1") (some completeQuoteState) true false ("x")
        (some sampleQuoteResult)).answer.data = true := by
  have h := C6_confirmation_branch confirmStore ("c1") (some completeQuoteState) true false ("x")
    (some sampleQuoteResult) rfl rfl
  exact ⟨h.1, (h.2.1 sampleQuoteResult rfl).1⟩

/-- C7 (counterexample): a duplicate `answered` event for a call id already
in the store is NOT a silent no-op — the record is overwritten by a fresh
`answered` record, losing the existing status and history. -/
theorem C7_counterexample :
    (handle_incoming_call_store c1Store ("c1") (some ("+15550100"))) ("c1") ≠ c1Store ("c1") := by
  decide

/-- C7 (amended): `handle_incoming_call_event` unconditionally overwrites
the record for the call id with a fresh `answered` record (empty history,
no quote state), leaving all other call ids untouched; create is therefore
NOT idempotent with respect to existing state. -/
theorem C7_amended (s : Store) (id : String) (phone : Option String) :
    (handle_incoming_call_store s id phone) id = some (freshAnsweredRecord phone)
  ∧ ∀ k, k ≠ id → (handle_incoming_call_store s id phone) k = s k := by
  constructor
  · simp [handle_incoming_call_store, storeUpdate]
  · intro k hk
    simp [handle_incoming_call_store, storeUpdate, hk]

/-- Witness for `C7_amended` at a concrete store. -/
theorem C7_amended_witness :
    (handle_incoming_call_store c1Store ("c1") (some ("+15550100"))) ("c1")
        = some (freshAnsweredRecord (some ("+15550100")))
  ∧ (handle_incoming_call_store c1Store ("c1") (some ("+15550100"))) ("c2") = c1Store ("c2") :=
  ⟨(C7_amended c1Store ("c1") (some ("+15550100"))).1,
   (C7_amended c1Store ("c1") (some ("+15550100"))).2 ("c2") (by decide)⟩

/-- C8: `normalize_email` maps the three reference inputs as the
specification states, and whenever it returns a non-null value that value
matches the `local@domain.tld` shape of `_EMAIL_REGEX`. -/
theorem C8_normalize_email :
    normalize_email ("john DOT smith AT gmail DOT com") = some ("john.smith@gmail.com")
  ∧ normalize_email ("not an email at all") = none
  ∧ normalize_email ("K-E-N-A-N@gmail.com") = some ("kenan@gmail.com")
  ∧ ∀ (raw v : String), normalize_email raw = some v → emailRegexMatch v.data = true := by
  refine ⟨by decide, by decide, by decide, ?_⟩
  intro raw v h
  rw [normalize_email] at h
  by_cases he : (trimL raw.data).isEmpty = true
  · rw [if_pos he] at h
    cases h
  · rw [if_neg he] at h
    exact firstValidEmail_shape _ v h

/-- Witness for `C8_normalize_email`: the shape property at the first
reference input. -/
theorem C8_normalize_email_witness :
    emailRegexMatch (String.data ("john.smith@gmail.com")) = true :=
  C8_normalize_email.2.2.2 ("john DOT smith AT gmail DOT com") ("john.smith@gmail.com")
    C8_normalize_email.1

/-- C9: for a call whose quote state is complete, any utterance equal to
`yes` or `confirm` after case-and-whitespace normalization takes the
deterministic fast path of `_is_confirmation`: the result is `True` and the
language-model confirmation classifier is invoked zero times. -/
theorem C9_confirmation_fast_path (s : String) (qs : Option QuoteState) (cfg : Bool)
    (llm : Except Unit Bool) (hcomplete : qsComplete qs = true)
    (h : caseWsNormalize s = "yes" ∨ caseWsNormalize s = "confirm") :
    _is_confirmation s qs cfg llm = (true, 0) := by
  have hletters : ∀ c ∈ filterNonWs (trimL (toLowerL s.data)), c.isLower = true := by
    intro c hc
    have hfix : filterNonWs (trimL (toLowerL s.data)) = filterNonWs (caseWsNormalize s).data :=
      (filterNonWs_caseWsNormalize s).symm
    rw [hfix] at hc
    rcases h with h | h <;> rw [h] at hc
    · rw [show ("yes" : String).data = ['y', 'e', 's'] from rfl] at hc
      have hfy : filterNonWs ['y', 'e', 's'] = ['y', 'e', 's'] := by decide
      rw [hfy] at hc
      fin_cases hc <;> decide
    · rw [show ("confirm" : String).data = ['c', 'o', 'n', 'f', 'i', 'r', 'm'] from rfl] at hc
      have hfc : filterNonWs ['c', 'o', 'n', 'f', 'i', 'r', 'm'] = ['c', 'o', 'n', 'f', 'i', 'r', 'm'] := by decide
      rw [hfc] at hc
      fin_cases hc <;> decide
  have hkey : normalizeConfirmText s = caseWsNormalize s :=
    normalizeConfirmText_eq_of_letters s hletters
  unfold _is_confirmation
  rw [if_pos (by rw [hkey]; exact h)]

/-- Witness for `C9_confirmation_fast_path`: a shouted, padded `YES` with a
complete quote state; the classifier oracle answers `false` and is not
consulted. -/
theorem C9_confirmation_fast_path_witness :
    _is_confirmation ("  YES  ") (some completeQuoteState) true (Except.ok false) = (true, 0) :=
  C9_confirmation_fast_path ("  YES  ") (some completeQuoteState) true (Except.ok false) rfl
    (Or.inl (by decide))

/-- C10 (counterexample): the product-matching step does NOT guarantee a
quantity of at least 1 for every named item — a negative extracted
quantity is truthy in Python, so `quantity or 1` keeps it. -/
theorem C10_counterexample :
    matchItemsPhone (fun _ _ => none) ["Widget"]
        [{ product_package := some ("w"), quantity := some (-2) }]
      = [{ product_package := some ("w"), quantity := some (-2) }]
  ∧ ¬ (1 ≤ (-2 : Int)) := by
  decide

/-- C10 (amended): a missing, null, or zero extracted quantity is replaced
by `1`; any other (nonzero) quantity, including a negative one, is kept.
Hence when no extracted quantity is negative, every item surviving the
product-matching step (in both the phone handler and the realtime tool)
carries a product name and a quantity of at least 1. -/
theorem C10_amended (matcher : String → List String → Option String)
    (products : List String) (items : List QuoteItem) :
    pyOr1 none = 1
  ∧ pyOr1 (some 0) = 1
  ∧ ((∀ it ∈ items, ∀ q : Int, it.quantity = some q → 0 ≤ q) →
      ∀ out ∈ matchItemsPhone matcher products items,
        ∃ q : Int, out.quantity = some q ∧ 1 ≤ q ∧ ∃ p, out.product_package = some p)
  ∧ ((∀ it ∈ items, ∀ q : Int, it.quantity = some q → 0 ≤ q) →
      ∀ out ∈ matchItemsTool matcher products items,
        ∃ q : Int, out.quantity = some q ∧ 1 ≤ q) :=
  ⟨rfl, rfl, matchItemsPhone_quantities matcher products items,
   matchItemsTool_quantities matcher products items⟩

/-- Witness for `C10_amended`: an item whose quantity the caller never
stated comes out of matching with quantity 1. -/
theorem C10_amended_witness :
    ∃ q : Int, ({ product_package := some ("w"), quantity := some 1 } : QuoteItem).quantity = some q
      ∧ 1 ≤ q ∧ ∃ p, ({ product_package := some ("w"), quantity := some 1 } : QuoteItem).product_package = some p :=
  (C10_amended (fun _ _ => none) ["Widget"] [{ product_package := some ("w"), quantity := none }]).2.2.1
    (by
      intro it hit q hq
      rw [List.mem_singleton] at hit
      subst hit
      simp at hq)
    { product_package := some ("w"), quantity := some 1 } (by decide)
